import Mathlib

/-!
Shallow embedding of the iris classification service
(`src/app/predict.py`, `src/app/main.py`, `src/app/schemas.py`).

Numbers are modelled as rationals (ℚ).  The fitted scikit-learn model is an
opaque black box with two operations (`predict` → class index, `predict_proba`
→ probability vector), so it is embedded as a structure of two functions.
The metadata artifact written by `src/train.py` is a dictionary with exactly
the keys `feature_names`, `target_names`, `accuracy`, `n_features`; it is
embedded as a structure of optional fields (a missing key is `none`).
Stateful methods of the singleton `ModelService` are embedded as explicit
state-passing functions; Python exceptions become `error` results.
-/

/-- The opaque fitted classifier: `model.predict(X)[0]` yields a class index,
`model.predict_proba(X)[0]` yields a probability vector aligned to class
indices. -/
structure IrisModel where
  predictIdx : List ℚ → Nat
  predictProba : List ℚ → List ℚ

/-- The metadata dictionary persisted by `src/train.py`: keys `feature_names`,
`target_names`, `accuracy`, `n_features`; a `none` field models an absent
key, so `d.get(key, default)` becomes `Option.getD`. -/
structure Metadata where
  feature_names : Option (List String)
  target_names : Option (List String)
  accuracy : Option ℚ
  n_features : Option Nat
deriving DecidableEq

/-- The empty dictionary `{}`. -/
def Metadata.empty : Metadata :=
  { feature_names := none, target_names := none, accuracy := none, n_features := none }

/-- Python truthiness of the metadata dictionary: a dict is truthy iff it is
non-empty, i.e. at least one key is present. -/
def Metadata.truthy (md : Metadata) : Bool :=
  md.feature_names.isSome || md.target_names.isSome || md.accuracy.isSome || md.n_features.isSome

/-- The fields of the `ModelService` singleton (`src/app/predict.py`):
class attributes `_model` and `_metadata`, both initially `None`. -/
structure ModelServiceState where
  modelAttr : Option IrisModel
  metadataAttr : Option Metadata

/-- The initial singleton state: `_model = None`, `_metadata = None`. -/
def ModelServiceState.init : ModelServiceState :=
  { modelAttr := none, metadataAttr := none }

/-- The `model/` directory on disk: `iris_model.joblib` and `metadata.joblib`,
each either present (with deserialized content) or absent. -/
structure ModelDir where
  iris_model : Option IrisModel
  metadata_joblib : Option Metadata

/-- The error raised by `load_model` when the model artifact is absent. -/
inductive LoadError
  | fileNotFound
deriving DecidableEq

/-- Method `ModelService.load_model` (`src/app/predict.py` lines 18-39): if a model
is already loaded, return immediately; if `model/iris_model.joblib` does not
exist, raise `FileNotFoundError` (state unchanged); otherwise store the model
and store the metadata, substituting the empty dict `{}` when
`model/metadata.joblib` is absent.  The pair returned is
(raised exception if any, resulting singleton state). -/
def ModelService.load_model (fs : ModelDir) (s : ModelServiceState) :
    Option LoadError × ModelServiceState :=
  if s.modelAttr.isSome then (none, s)
  else
    match fs.iris_model with
    | none => (some LoadError.fileNotFound, s)
    | some m =>
      match fs.metadata_joblib with
      | some md => (none, { s with modelAttr := some m, metadataAttr := some md })
      | none => (none, { s with modelAttr := some m, metadataAttr := some Metadata.empty })

/-- Exceptions that `ModelService.predict` can raise: the explicit
`RuntimeError` when `_model is None`; an `AttributeError` when `_metadata` is
still `None` (`None.get` — unreachable after `load_model`); an `IndexError`
when the predicted index is out of range of the class-name list or of the
probability vector. -/
inductive PredictErr
  | notLoaded
  | attrError
  | indexError
deriving DecidableEq

/-- The `str(e)` rendering of each exception, as Python would produce it. -/
def PredictErr.msg : PredictErr → String
  | PredictErr.notLoaded => "Model not loaded. Call load_model() first."
  | PredictErr.attrError => "\x27NoneType\x27 object has no attribute \x27get\x27"
  | PredictErr.indexError => "index out of range"

/-- One step of building a Python dict by comprehension: assigning to an
existing key overwrites its value in place, a new key is appended. -/
def dictInsert (d : List (String × ℚ)) (k : String) (v : ℚ) : List (String × ℚ) :=
  if k ∈ d.map Prod.fst then
    d.map (fun p => if p.1 = k then (k, v) else p)
  else d ++ [(k, v)]

/-- Python dict-comprehension semantics over a list of key-value pairs
(insertion order, later duplicate keys overwrite earlier values). -/
def dictOfPairs (ps : List (String × ℚ)) : List (String × ℚ) :=
  ps.foldl (fun d p => dictInsert d p.1 p.2) []

/-- The synthetic class names used when metadata lacks `target_names`. -/
def syntheticNames : List String := ["class_0", "class_1", "class_2"]

/-- The value of a successful prediction: `(predicted_class, confidence,
probabilities dict)`. -/
abbrev PredResult := String × ℚ × List (String × ℚ)

/-- Method `ModelService.predict` (`src/app/predict.py` lines 41-59): raise if the
model is not loaded; compute class index and probability vector via the model;
resolve the index to a class name through `metadata.get("target_names",
["class_0","class_1","class_2"])` (Python list indexing raises `IndexError`
out of range); take the confidence from the probability vector at the same
index; and build the `{class_name: prob}` dict by zipping names with
probabilities. -/
def ModelService.predict (s : ModelServiceState) (features : List ℚ) :
    Except PredictErr PredResult :=
  match s.modelAttr with
  | none => Except.error PredictErr.notLoaded
  | some m =>
    match s.metadataAttr with
    | none => Except.error PredictErr.attrError
    | some md =>
      let prediction := m.predictIdx features
      let probabilities := m.predictProba features
      let class_names := md.target_names.getD syntheticNames
      match class_names.get? prediction with
      | none => Except.error PredictErr.indexError
      | some predicted_class =>
        match probabilities.get? prediction with
        | none => Except.error PredictErr.indexError
        | some confidence =>
          Except.ok (predicted_class, confidence,
            dictOfPairs (class_names.zip probabilities))

/-- Method `ModelService.predict_batch` (`src/app/predict.py` lines 61-62): the list
comprehension `[self.predict(features) for features in features_list]`,
evaluated left to right; the first exception aborts the whole batch. -/
def ModelService.predict_batch (s : ModelServiceState) :
    List (List ℚ) → Except PredictErr (List PredResult)
  | [] => Except.ok []
  | f :: rest =>
    match ModelService.predict s f with
    | Except.error e => Except.error e
    | Except.ok r =>
      match ModelService.predict_batch s rest with
      | Except.error e => Except.error e
      | Except.ok rs => Except.ok (r :: rs)

/-- Method `ModelService.get_metadata` (`src/app/predict.py` lines 64-65):
`self._metadata if self._metadata else {}` — both `None` and the empty dict
are falsy, so each yields `{}`. -/
def ModelService.get_metadata (s : ModelServiceState) : Metadata :=
  match s.metadataAttr with
  | some md => if md.truthy then md else Metadata.empty
  | none => Metadata.empty

/-- Method `ModelService.is_loaded` (`src/app/predict.py` lines 67-68). -/
def ModelService.is_loaded (s : ModelServiceState) : Bool :=
  s.modelAttr.isSome

/-- The `accuracy` entry of the health response:
`metadata.get("accuracy", "unknown")` is a float when present and the string
`"unknown"` otherwise. -/
inductive AccuracyField
  | known (a : ℚ)
  | unknown
deriving DecidableEq

/-- The `model_info` dictionary built by `health_check` (`src/app/main.py`). -/
structure ModelInfo where
  accuracy : AccuracyField
  features : List String
  classes : List String
  n_features : Nat
deriving DecidableEq

/-- The `HealthResponse` schema (`src/app/schemas.py`). -/
structure HealthResponse where
  status : String
  model_loaded : Bool
  model_info : ModelInfo
deriving DecidableEq

/-- The `GET /health` handler `health_check` (`src/app/main.py` lines 57-70). -/
def health_check (s : ModelServiceState) : HealthResponse :=
  let metadata := ModelService.get_metadata s
  { status := if ModelService.is_loaded s then "healthy" else "unhealthy"
    model_loaded := ModelService.is_loaded s
    model_info :=
      { accuracy :=
          match metadata.accuracy with
          | some a => AccuracyField.known a
          | none => AccuracyField.unknown
        features := metadata.feature_names.getD []
        classes := metadata.target_names.getD []
        n_features := metadata.n_features.getD 0 } }

/-- The `PredictionInput` schema (`src/app/schemas.py`): four floats, each
constrained by validation to `0 ≤ x ≤ 10`. -/
structure PredictionInput where
  sepal_length : ℚ
  sepal_width : ℚ
  petal_length : ℚ
  petal_width : ℚ
deriving DecidableEq

/-- The framework validation constraint on `PredictionInput`:
every field has `ge=0, le=10`. -/
def PredictionInput.valid (i : PredictionInput) : Prop :=
  0 ≤ i.sepal_length ∧ i.sepal_length ≤ 10 ∧
  0 ≤ i.sepal_width ∧ i.sepal_width ≤ 10 ∧
  0 ≤ i.petal_length ∧ i.petal_length ≤ 10 ∧
  0 ≤ i.petal_width ∧ i.petal_width ≤ 10

/-- The feature list built by the `POST /predict` handler
(`src/app/main.py` lines 74-79). -/
def PredictionInput.toFeatures (i : PredictionInput) : List ℚ :=
  [i.sepal_length, i.sepal_width, i.petal_length, i.petal_width]

/-- The `PredictionOutput` schema (`src/app/schemas.py`). -/
structure PredictionOutput where
  predicted_class : String
  confidence : ℚ
  probabilities : List (String × ℚ)
deriving DecidableEq

/-- The outcome of an endpoint handler: either a structured response body or
an `HTTPException(status_code, detail)`. -/
inductive EndpointResult (α : Type)
  | ok (a : α)
  | httpError (status : Nat) (detail : String)
deriving DecidableEq

/-- The `POST /predict` handler (`src/app/main.py` lines 72-96): build the
feature list, call `model_service.predict`, wrap the triple in a
`PredictionOutput`; any exception is caught and re-raised as
`HTTPException(500, "Prediction failed: " + str(e))`. -/
def predictEndpoint (s : ModelServiceState) (inp : PredictionInput) :
    EndpointResult PredictionOutput :=
  match ModelService.predict s inp.toFeatures with
  | Except.ok (c, conf, probs) => EndpointResult.ok ⟨c, conf, probs⟩
  | Except.error e => EndpointResult.httpError 500 ("Prediction failed: " ++ e.msg)

/-- A method call on the `ModelService` singleton (plus the `/health`
handler, which only reads it). -/
inductive ServiceCall
  | loadCall (fs : ModelDir)
  | predictCall (x : List ℚ)
  | predictBatchCall (xs : List (List ℚ))
  | getMetadataCall
  | isLoadedCall
  | healthCall

/-- The state component of each method call: `load_model` is the only method
of `src/app/predict.py` whose body assigns to `self._model`/`self._metadata`;
`predict`, `predict_batch`, `get_metadata`, `is_loaded` and the `/health`
handler contain only reads of those attributes. -/
def ServiceCall.stateAfter (s : ModelServiceState) : ServiceCall → ModelServiceState
  | ServiceCall.loadCall fs => (ModelService.load_model fs s).2
  | ServiceCall.predictCall _ => s
  | ServiceCall.predictBatchCall _ => s
  | ServiceCall.getMetadataCall => s
  | ServiceCall.isLoadedCall => s
  | ServiceCall.healthCall => s

/-! ### Concrete instances used to exercise the definitions -/

/-- A concrete black-box model used to exercise the service: it always
predicts class index 0 with probability vector `[7/10, 2/10, 1/10]`. -/
def demoModel : IrisModel :=
  { predictIdx := fun _ => 0
    predictProba := fun _ => [7/10, 2/10, 1/10] }

/-- Concrete metadata with the shape produced by `src/train.py`. -/
def demoMetadata : Metadata :=
  { feature_names := some ["sepal length (cm)", "sepal width (cm)",
      "petal length (cm)", "petal width (cm)"]
    target_names := some ["setosa", "versicolor", "virginica"]
    accuracy := some (9/10)
    n_features := some 4 }

/-- A singleton state after a successful load of model and metadata. -/
def demoState : ModelServiceState :=
  { modelAttr := some demoModel, metadataAttr := some demoMetadata }

/-- A model directory holding both artifacts. -/
def demoDir : ModelDir :=
  { iris_model := some demoModel, metadata_joblib := some demoMetadata }

/-- A model directory where only the model artifact exists (metadata file
absent). -/
def demoDirNoMeta : ModelDir :=
  { iris_model := some demoModel, metadata_joblib := none }

/-! ### Python dict-comprehension semantics -/

/-- Inserting a fresh key appends it. -/
lemma dictInsert_of_not_mem (d : List (String × ℚ)) (k : String) (v : ℚ)
    (h : k ∉ d.map Prod.fst) : dictInsert d k v = d ++ [(k, v)] := by
  simp [dictInsert, h]

/-- Folding `dictInsert` over pairs with pairwise-fresh keys appends them all. -/
lemma foldl_dictInsert_of_nodup (ps : List (String × ℚ)) :
    ∀ acc : List (String × ℚ), (acc.map Prod.fst ++ ps.map Prod.fst).Nodup →
    ps.foldl (fun d p => dictInsert d p.1 p.2) acc = acc ++ ps := by
  induction ps with
  | nil => intro acc _; simp
  | cons p ps ih =>
    intro acc h
    have hk : p.1 ∉ acc.map Prod.fst := by
      rw [List.nodup_append] at h
      exact fun hmem => h.2.2 hmem (by simp)
    rw [List.foldl_cons, dictInsert_of_not_mem _ _ _ hk, ih (acc ++ [(p.1, p.2)])]
    · simp
    · simpa [List.append_assoc] using h

/-- For pairs with distinct keys, the Python dict comprehension returns the
pairs unchanged, in order. -/
lemma dictOfPairs_of_nodup (ps : List (String × ℚ))
    (h : (ps.map Prod.fst).Nodup) : dictOfPairs ps = ps := by
  simpa using foldl_dictInsert_of_nodup ps [] (by simpa using h)

example : dictOfPairs [("a", 1), ("b", 2)] = [("a", 1), ("b", 2)] := by decide
example : dictOfPairs [("a", 1), ("b", 2), ("a", 5)] = [("a", 5), ("b", 2)] := by decide
example : ModelService.predict demoState [51/10, 35/10, 14/10, 2/10] =
    Except.ok ("setosa", 7/10,
      [("setosa", 7/10), ("versicolor", 2/10), ("virginica", 1/10)]) := by
  simp [ModelService.predict, demoState, demoModel, demoMetadata, dictOfPairs, dictInsert,
    syntheticNames]

/-! ### Claim theorems -/

/-- Claim C1: whenever the loaded model yields a class index that is in range
of the class-name list (the metadata's `target_names`, or the synthetic
`class_0..class_2` when the key is absent) and of the probability vector, and
— per the black-box contract of the classifier — that index carries the
highest probability, `predict` returns the class name at that index, a
confidence equal to the probability assigned to that class, and the zipped
probability dict; the confidence occurs in the probability vector and bounds
every entry of it from above. -/
theorem predict_resolves_index_and_confidence
    (s : ModelServiceState) (m : IrisModel) (md : Metadata) (x : List ℚ)
    (cls : String) (conf : ℚ)
    (hm : s.modelAttr = some m) (hmd : s.metadataAttr = some md)
    (hcls : (md.target_names.getD syntheticNames).get? (m.predictIdx x) = some cls)
    (hconf : (m.predictProba x).get? (m.predictIdx x) = some conf)
    (hmax : ∀ q ∈ m.predictProba x, q ≤ conf) :
    ModelService.predict s x =
      Except.ok (cls, conf,
        dictOfPairs ((md.target_names.getD syntheticNames).zip (m.predictProba x))) ∧
    conf ∈ m.predictProba x ∧
    ∀ q ∈ m.predictProba x, q ≤ conf := by
  refine ⟨?_, List.get?_mem hconf, hmax⟩
  simp only [ModelService.predict, hm, hmd, hcls, hconf]

/-- Witness for C1 at a concrete state and feature vector. -/
theorem predict_resolves_index_and_confidence_witness :
    ModelService.predict demoState [51/10, 35/10, 14/10, 2/10] =
      Except.ok ("setosa", 7/10,
        dictOfPairs ((demoMetadata.target_names.getD syntheticNames).zip
          (demoModel.predictProba [51/10, 35/10, 14/10, 2/10]))) ∧
    (7/10 : ℚ) ∈ demoModel.predictProba [51/10, 35/10, 14/10, 2/10] ∧
    ∀ q ∈ demoModel.predictProba [51/10, 35/10, 14/10, 2/10], q ≤ 7/10 :=
  predict_resolves_index_and_confidence demoState demoModel demoMetadata
    [51/10, 35/10, 14/10, 2/10] "setosa" (7/10) rfl rfl rfl rfl
    (by intro q hq; simp [demoModel] at hq; rcases hq with h | h | h <;> rw [h] <;> norm_num)

/-- Claim C2: for a valid input (each of the four features in `[0,10]`), a
loaded state, and a model whose probability output on the input is a genuine
distribution over the (distinct) known classes — entries nonnegative, summing
to one, aligned index-by-index with the class-name list — with the predicted
index in range, `predict` returns a class name from the known class list, a
confidence in `[0,1]`, and a probability dict whose keys are exactly the known
classes in order and whose values sum to one. -/
theorem predict_valid_output
    (s : ModelServiceState) (m : IrisModel) (md : Metadata) (inp : PredictionInput)
    (hm : s.modelAttr = some m) (hmd : s.metadataAttr = some md)
    (hv : inp.valid)
    (hnn : ∀ q ∈ m.predictProba inp.toFeatures, 0 ≤ q)
    (hsum : (m.predictProba inp.toFeatures).sum = 1)
    (hlen : (m.predictProba inp.toFeatures).length =
      (md.target_names.getD syntheticNames).length)
    (hnd : (md.target_names.getD syntheticNames).Nodup)
    (hi : m.predictIdx inp.toFeatures < (md.target_names.getD syntheticNames).length) :
    ∃ cls conf pd,
      ModelService.predict s inp.toFeatures = Except.ok (cls, conf, pd) ∧
      cls ∈ md.target_names.getD syntheticNames ∧
      0 ≤ conf ∧ conf ≤ 1 ∧
      pd.map Prod.fst = md.target_names.getD syntheticNames ∧
      (pd.map Prod.snd).sum = 1 := by
  have hi' : m.predictIdx inp.toFeatures < (m.predictProba inp.toFeatures).length := by
    omega
  have hcls := List.get?_eq_get hi
  have hconf := List.get?_eq_get hi'
  refine ⟨(md.target_names.getD syntheticNames).get ⟨_, hi⟩,
    (m.predictProba inp.toFeatures).get ⟨_, hi'⟩,
    dictOfPairs ((md.target_names.getD syntheticNames).zip
      (m.predictProba inp.toFeatures)), ?_, ?_, ?_, ?_, ?_, ?_⟩
  · simp only [ModelService.predict, hm, hmd, hcls, hconf]
  · exact List.get?_mem hcls
  · exact hnn _ (List.get?_mem hconf)
  · exact hsum ▸ List.single_le_sum hnn _ (List.get?_mem hconf)
  · rw [dictOfPairs_of_nodup _ (by rw [List.map_fst_zip _ _ (le_of_eq hlen.symm)]; exact hnd),
      List.map_fst_zip _ _ (le_of_eq hlen.symm)]
  · rw [dictOfPairs_of_nodup _ (by rw [List.map_fst_zip _ _ (le_of_eq hlen.symm)]; exact hnd),
      List.map_snd_zip _ _ (le_of_eq hlen), hsum]

/-- Witness for C2 at a concrete state and input. -/
theorem predict_valid_output_witness :
    ∃ cls conf pd,
      ModelService.predict demoState
        (PredictionInput.toFeatures ⟨51/10, 35/10, 14/10, 2/10⟩) =
          Except.ok (cls, conf, pd) ∧
      cls ∈ demoMetadata.target_names.getD syntheticNames ∧
      0 ≤ conf ∧ conf ≤ 1 ∧
      pd.map Prod.fst = demoMetadata.target_names.getD syntheticNames ∧
      (pd.map Prod.snd).sum = 1 :=
  predict_valid_output demoState demoModel demoMetadata ⟨51/10, 35/10, 14/10, 2/10⟩
    rfl rfl
    (by refine ⟨?_, ?_, ?_, ?_, ?_, ?_, ?_, ?_⟩ <;> norm_num)
    (by intro q hq; simp [demoModel] at hq; rcases hq with h | h | h <;> rw [h] <;> norm_num)
    (by norm_num [demoModel])
    (by simp [demoModel, demoMetadata])
    (by simp [demoMetadata])
    (by simp [demoModel, demoMetadata])

/-- Claim C3: `predict_batch` is the sequential map of `predict` — a
successful batch over n vectors has exactly n results, in input order, each
equal to the result of `predict` on that vector alone; and if `predict` fails
on any vector of the batch, the whole batch fails with an error (no partial
results). -/
theorem predict_batch_is_sequential_map :
    (∀ (s : ModelServiceState) (l : List (List ℚ)) (rs : List PredResult),
        ModelService.predict_batch s l = Except.ok rs →
        rs.length = l.length ∧
        ∀ i x, l.get? i = some x →
          ∃ r, ModelService.predict s x = Except.ok r ∧ rs.get? i = some r) ∧
    (∀ (s : ModelServiceState) (l : List (List ℚ)),
        (∃ x ∈ l, ∃ e, ModelService.predict s x = Except.error e) →
        ∃ e, ModelService.predict_batch s l = Except.error e) := by
  constructor
  · intro s l
    induction l with
    | nil =>
      intro rs h
      simp only [ModelService.predict_batch] at h
      cases h
      exact ⟨rfl, by intro i x hx; simp at hx⟩
    | cons f rest ih =>
      intro rs h
      simp only [ModelService.predict_batch] at h
      cases hf : ModelService.predict s f with
      | error e => rw [hf] at h; cases h
      | ok r =>
        rw [hf] at h
        cases hrest : ModelService.predict_batch s rest with
        | error e => rw [hrest] at h; cases h
        | ok rs' =>
          rw [hrest] at h
          cases h
          obtain ⟨hlen, hidx⟩ := ih rs' hrest
          refine ⟨by simp [hlen], ?_⟩
          intro i x hx
          cases i with
          | zero =>
            simp only [List.get?] at hx ⊢
            cases hx
            exact ⟨r, hf, rfl⟩
          | succ n =>
            simp only [List.get?] at hx ⊢
            exact hidx n x hx
  · intro s l
    induction l with
    | nil => rintro ⟨x, hx, -⟩; simp at hx
    | cons f rest ih =>
      rintro ⟨x, hx, e, he⟩
      cases hf : ModelService.predict s f with
      | error e' => exact ⟨e', by simp only [ModelService.predict_batch, hf]⟩
      | ok r =>
        rcases List.mem_cons.mp hx with rfl | hx'
        · rw [hf] at he; cases he
        · obtain ⟨e', he'⟩ := ih ⟨x, hx', e, he⟩
          exact ⟨e', by simp only [ModelService.predict_batch, hf, he']⟩

/-- Witness for C3: a successful two-element batch at a concrete loaded
state, and a failing batch at the unloaded initial state. -/
theorem predict_batch_is_sequential_map_witness :
    (([("setosa", 7/10, [("setosa", 7/10), ("versicolor", 2/10), ("virginica", 1/10)]),
       ("setosa", 7/10, [("setosa", 7/10), ("versicolor", 2/10), ("virginica", 1/10)])] :
        List PredResult).length =
      ([[51/10, 35/10, 14/10, 2/10], [67/10, 31/10, 47/10, 15/10]] : List (List ℚ)).length ∧
     ∀ i x, ([[51/10, 35/10, 14/10, 2/10], [67/10, 31/10, 47/10, 15/10]] :
        List (List ℚ)).get? i = some x →
       ∃ r, ModelService.predict demoState x = Except.ok r ∧
         ([("setosa", 7/10, [("setosa", 7/10), ("versicolor", 2/10), ("virginica", 1/10)]),
           ("setosa", 7/10, [("setosa", 7/10), ("versicolor", 2/10), ("virginica", 1/10)])] :
            List PredResult).get? i = some r) ∧
    (∃ e, ModelService.predict_batch ModelServiceState.init
      [[51/10, 35/10, 14/10, 2/10]] = Except.error e) :=
  ⟨predict_batch_is_sequential_map.1 demoState
      [[51/10, 35/10, 14/10, 2/10], [67/10, 31/10, 47/10, 15/10]] _
      (by simp [ModelService.predict_batch, ModelService.predict, demoState, demoModel,
        demoMetadata, dictOfPairs, dictInsert, syntheticNames]),
   predict_batch_is_sequential_map.2 ModelServiceState.init
      [[51/10, 35/10, 14/10, 2/10]]
      ⟨[51/10, 35/10, 14/10, 2/10], by simp, PredictErr.notLoaded, rfl⟩⟩

/-- Reusable fact: when a model is already stored, `load_model` is a no-op
returning no error, for any contents of the model directory. -/
lemma load_model_of_loaded (fs : ModelDir) (s : ModelServiceState)
    (h : s.modelAttr.isSome) : ModelService.load_model fs s = (none, s) := by
  simp [ModelService.load_model, h]

/-- Claim C4: `load_model` is idempotent.  First conjunct: in any state where
a model is already stored, `load_model` returns without error and leaves the
state unchanged, for every possible content of the model directory (so it
reads no files).  Second conjunct: after any call of `load_model` that raised
no error, a second call — again with arbitrary directory contents — returns
without error and changes nothing, so two calls observably equal one. -/
theorem load_model_idempotent :
    (∀ (fs : ModelDir) (s : ModelServiceState) (m : IrisModel),
        s.modelAttr = some m → ModelService.load_model fs s = (none, s)) ∧
    (∀ (fs fs2 : ModelDir) (s : ModelServiceState),
        (ModelService.load_model fs s).1 = none →
        ModelService.load_model fs2 (ModelService.load_model fs s).2 =
          (none, (ModelService.load_model fs s).2)) := by
  constructor
  · intro fs s m hm
    exact load_model_of_loaded fs s (by simp [hm])
  · intro fs fs2 s hok
    have h2 : (ModelService.load_model fs s).2.modelAttr.isSome := by
      by_cases hs : s.modelAttr.isSome
      · rw [load_model_of_loaded fs s hs]; exact hs
      · cases hmf : fs.iris_model with
        | none => exfalso; simp [ModelService.load_model, hs, hmf] at hok
        | some m =>
          cases hmd : fs.metadata_joblib with
          | none => simp [ModelService.load_model, hs, hmf, hmd]
          | some md => simp [ModelService.load_model, hs, hmf, hmd]
    exact load_model_of_loaded fs2 _ h2

/-- Witness for C4 at a concrete loaded state and a fresh load from the
initial state. -/
theorem load_model_idempotent_witness :
    ModelService.load_model demoDir demoState = (none, demoState) ∧
    ModelService.load_model demoDir (ModelService.load_model demoDir ModelServiceState.init).2 =
      (none, (ModelService.load_model demoDir ModelServiceState.init).2) :=
  ⟨load_model_idempotent.1 demoDir demoState demoModel rfl,
   load_model_idempotent.2 demoDir demoDir ModelServiceState.init rfl⟩

/-- Claim C5: from an unloaded state, `load_model` raises `FileNotFoundError`
(leaving the state unchanged, model still unloaded) precisely when the model
artifact is absent; when the model artifact exists but the metadata artifact
is absent, the load still succeeds and stores the empty metadata mapping. -/
theorem load_model_notfound_iff_model_artifact_absent :
    ∀ (fs : ModelDir) (s : ModelServiceState), s.modelAttr = none →
      (fs.iris_model = none →
        ModelService.load_model fs s = (some LoadError.fileNotFound, s)) ∧
      ((ModelService.load_model fs s).1.isSome ↔ fs.iris_model = none) ∧
      (∀ m, fs.iris_model = some m → fs.metadata_joblib = none →
        ModelService.load_model fs s =
          (none, { s with modelAttr := some m, metadataAttr := some Metadata.empty })) := by
  intro fs s hs
  refine ⟨?_, ?_, ?_⟩
  · intro hmf
    simp [ModelService.load_model, hs, hmf]
  · cases hmf : fs.iris_model with
    | none => simp [ModelService.load_model, hs, hmf]
    | some m =>
      cases hmd : fs.metadata_joblib with
      | none => simp [ModelService.load_model, hs, hmf, hmd]
      | some md => simp [ModelService.load_model, hs, hmf, hmd]
  · intro m hmf hmd
    simp [ModelService.load_model, hs, hmf, hmd]

/-- Witness for C5: a directory with no model artifact makes the load fail
with the state unchanged, and a directory with a model but no metadata loads
successfully with empty metadata. -/
theorem load_model_notfound_iff_model_artifact_absent_witness :
    ModelService.load_model ⟨none, none⟩ ModelServiceState.init =
      (some LoadError.fileNotFound, ModelServiceState.init) ∧
    ModelService.load_model demoDirNoMeta ModelServiceState.init =
      (none, { ModelServiceState.init with
        modelAttr := some demoModel, metadataAttr := some Metadata.empty }) :=
  ⟨(load_model_notfound_iff_model_artifact_absent ⟨none, none⟩
      ModelServiceState.init rfl).1 rfl,
   (load_model_notfound_iff_model_artifact_absent demoDirNoMeta
      ModelServiceState.init rfl).2.2 demoModel rfl rfl⟩

/-- Claim C6: calling `predict` on an unloaded state fails with the
`RuntimeError` state error instead of returning a result, and the call leaves
the singleton state unchanged. -/
theorem predict_before_load_errors :
    ∀ (s : ModelServiceState) (x : List ℚ), s.modelAttr = none →
      ModelService.predict s x = Except.error PredictErr.notLoaded ∧
      ServiceCall.stateAfter s (ServiceCall.predictCall x) = s := by
  intro s x hs
  exact ⟨by simp [ModelService.predict, hs], rfl⟩

/-- Witness for C6 at the initial state and a concrete feature vector. -/
theorem predict_before_load_errors_witness :
    ModelService.predict ModelServiceState.init [51/10, 35/10, 14/10, 2/10] =
      Except.error PredictErr.notLoaded ∧
    ServiceCall.stateAfter ModelServiceState.init
      (ServiceCall.predictCall [51/10, 35/10, 14/10, 2/10]) = ModelServiceState.init :=
  predict_before_load_errors ModelServiceState.init [51/10, 35/10, 14/10, 2/10] rfl

/-- Counterexample to claim C7 as stated: loading from a directory whose
metadata artifact is absent succeeds, after which the health endpoint reports
`status = "healthy"` and `model_loaded = true` — but the feature and class
lists in `model_info` are empty, not non-empty. -/
theorem health_after_load_empty_lists_counterexample :
    (ModelService.load_model demoDirNoMeta ModelServiceState.init).1 = none ∧
    (health_check (ModelService.load_model demoDirNoMeta ModelServiceState.init).2).status =
      "healthy" ∧
    (health_check (ModelService.load_model demoDirNoMeta
      ModelServiceState.init).2).model_loaded = true ∧
    (health_check (ModelService.load_model demoDirNoMeta
      ModelServiceState.init).2).model_info.classes = [] ∧
    (health_check (ModelService.load_model demoDirNoMeta
      ModelServiceState.init).2).model_info.features = [] :=
  ⟨rfl, rfl, rfl, rfl, rfl⟩

/-- Claim C7 (amended): the health endpoint reports the load state truthfully
— unloaded states yield `status = "unhealthy"` and `model_loaded = false`,
loaded states yield `status = "healthy"` and `model_loaded = true` — and the
feature and class lists of `model_info` echo the served metadata's
`feature_names` and `target_names` (defaulting to the empty list), so they
are non-empty exactly when the loaded metadata holds non-empty lists. -/
theorem health_reports_load_state :
    (∀ s : ModelServiceState, ModelService.is_loaded s = false →
        (health_check s).status = "unhealthy" ∧ (health_check s).model_loaded = false) ∧
    (∀ s : ModelServiceState, ModelService.is_loaded s = true →
        (health_check s).status = "healthy" ∧ (health_check s).model_loaded = true) ∧
    (∀ s : ModelServiceState,
        (health_check s).model_info.classes =
          (ModelService.get_metadata s).target_names.getD [] ∧
        (health_check s).model_info.features =
          (ModelService.get_metadata s).feature_names.getD []) := by
  refine ⟨?_, ?_, ?_⟩
  · intro s h
    constructor <;> simp [health_check, h]
  · intro s h
    constructor <;> simp [health_check, h]
  · intro s
    exact ⟨rfl, rfl⟩

/-- Witness for the amended C7: the unloaded initial state reports unhealthy,
and the concrete loaded state reports healthy with the metadata's non-empty
class list. -/
theorem health_reports_load_state_witness :
    ((health_check ModelServiceState.init).status = "unhealthy" ∧
     (health_check ModelServiceState.init).model_loaded = false) ∧
    ((health_check demoState).status = "healthy" ∧
     (health_check demoState).model_loaded = true) ∧
    ((health_check demoState).model_info.classes =
       (ModelService.get_metadata demoState).target_names.getD [] ∧
     (health_check demoState).model_info.features =
       (ModelService.get_metadata demoState).feature_names.getD []) :=
  ⟨health_reports_load_state.1 ModelServiceState.init rfl,
   health_reports_load_state.2.1 demoState rfl,
   health_reports_load_state.2.2 demoState⟩

/-- Claim C8: the `POST /predict` handler maps any exception raised by the
underlying `predict` call — including the use-before-load state error — to an
HTTP 500 whose detail contains the raw exception text, returns the structured
prediction output otherwise, and produces no error status other than 500. -/
theorem predict_endpoint_error_mapping :
    ∀ (s : ModelServiceState) (inp : PredictionInput),
      (∀ e, ModelService.predict s inp.toFeatures = Except.error e →
          predictEndpoint s inp =
            EndpointResult.httpError 500 ("Prediction failed: " ++ e.msg) ∧
          ∃ pre post, ("Prediction failed: " ++ e.msg : String) =
            pre ++ e.msg ++ post) ∧
      (∀ r, ModelService.predict s inp.toFeatures = Except.ok r →
          predictEndpoint s inp = EndpointResult.ok ⟨r.1, r.2.1, r.2.2⟩) ∧
      (∀ st d, predictEndpoint s inp = EndpointResult.httpError st d → st = 500) := by
  intro s inp
  refine ⟨?_, ?_, ?_⟩
  · intro e he
    refine ⟨by simp only [predictEndpoint, he], "Prediction failed: ", "", ?_⟩
    simp
  · intro r hr
    simp only [predictEndpoint, hr]
  · intro st d h
    simp only [predictEndpoint] at h
    cases hp : ModelService.predict s inp.toFeatures with
    | error e => rw [hp] at h; cases h; rfl
    | ok r => rw [hp] at h; obtain ⟨c, conf, probs⟩ := r; cases h

/-- Witness for C8: at the unloaded initial state the handler returns a 500
carrying the state-error text. -/
theorem predict_endpoint_error_mapping_witness :
    (predictEndpoint ModelServiceState.init ⟨51/10, 35/10, 14/10, 2/10⟩ =
      EndpointResult.httpError 500
        ("Prediction failed: " ++ PredictErr.msg PredictErr.notLoaded) ∧
     ∃ pre post, ("Prediction failed: " ++ PredictErr.msg PredictErr.notLoaded : String) =
       pre ++ PredictErr.msg PredictErr.notLoaded ++ post) :=
  (predict_endpoint_error_mapping ModelServiceState.init ⟨51/10, 35/10, 14/10, 2/10⟩).1
    PredictErr.notLoaded rfl

/-- Claim C9: every operation on the serving path other than `load_model`
(`predict`, `predict_batch`, `get_metadata`, `is_loaded`, and the health
endpoint) leaves the singleton's stored model and metadata unchanged in any
loaded state. -/
theorem serving_path_read_only :
    ∀ (s : ModelServiceState) (c : ServiceCall),
      ModelService.is_loaded s = true →
      (∀ fs, c ≠ ServiceCall.loadCall fs) →
      ServiceCall.stateAfter s c = s := by
  intro s c _ hc
  cases c with
  | loadCall fs => exact absurd rfl (hc fs)
  | predictCall x => rfl
  | predictBatchCall xs => rfl
  | getMetadataCall => rfl
  | isLoadedCall => rfl
  | healthCall => rfl

/-- Witness for C9: a predict call on the concrete loaded state leaves it
unchanged. -/
theorem serving_path_read_only_witness :
    ServiceCall.stateAfter demoState
      (ServiceCall.predictCall [51/10, 35/10, 14/10, 2/10]) = demoState :=
  serving_path_read_only demoState
    (ServiceCall.predictCall [51/10, 35/10, 14/10, 2/10]) rfl
    (fun fs h => ServiceCall.noConfusion h)

/-- Claim C10: `get_metadata` is total and never yields a null value — in
every state, including the initial one where `_metadata` is still `None`, it
returns either the stored metadata mapping or the empty mapping; consequently
the health endpoint evaluates safely before any load. -/
theorem get_metadata_total_or_empty :
    (∀ s : ModelServiceState,
        ModelService.get_metadata s = Metadata.empty ∨
        ∃ md, s.metadataAttr = some md ∧ ModelService.get_metadata s = md) ∧
    health_check ModelServiceState.init =
      ⟨"unhealthy", false, ⟨AccuracyField.unknown, [], [], 0⟩⟩ := by
  constructor
  · intro s
    cases hmd : s.metadataAttr with
    | none => exact Or.inl (by simp [ModelService.get_metadata, hmd])
    | some md =>
      by_cases ht : md.truthy
      · exact Or.inr ⟨md, rfl, by simp [ModelService.get_metadata, hmd, ht]⟩
      · exact Or.inl (by simp [ModelService.get_metadata, hmd, ht])
  · rfl
